import Mathlib

/-!
Verification of the RepoChat-200k application (`src/app.py`) against its
natural-language specification.

The repository ships a single source file, `app.py`, a Streamlit UI shell.
The modules it imports (`repo_service`, `llm_service`, `token_count`) are not
part of the sources available here, so their operations are modelled from the
specification, as flagged in the doc comment of each such definition.  All
code reachable in `app.py` itself (chat-history handling, stream consumption,
message assembly, existence guards, client caching) is embedded directly.
-/

namespace RepoChat

/-- A file of a repository, as exposed by the repository metadata:
its path, the folder it lives in, its language, and its content. -/
structure RepoFile where
  path : String
  folder : String
  language : String
  content : String
deriving Repr, DecidableEq

/-- The size of a file, measured in characters of its content
(the budget unit of the content selector's limit). -/
def fileSize (f : RepoFile) : Nat := f.content.length

/-- Modelled from the spec: the filter predicate of
`repo_service.get_filtered_files` (the `repo_service` module is not in the
sources).  A file is included if (folders is empty OR the file's folder is in
folders) AND (files is empty OR the file's path is in files) AND (languages
is empty OR the file's language is in languages). -/
def matchesFilter (selected_folders selected_files selected_languages : List String)
    (f : RepoFile) : Bool :=
  (selected_folders.isEmpty || selected_folders.contains f.folder)
    && (selected_files.isEmpty || selected_files.contains f.path)
    && (selected_languages.isEmpty || selected_languages.contains f.language)

/-- Modelled from the spec: rendering of one included file in the
concatenated blob, a separator identifying the file's path followed by the
whole file content. -/
def renderFile (f : RepoFile) : String :=
  "### " ++ f.path ++ "\n" ++ f.content ++ "\n"

/-- Modelled from the spec: whole-file truncation under the limit.
Files are taken in order while the cumulative size stays within the limit;
at the first file that would exceed it, no further file is included. -/
def takeWithinLimit (limit : Nat) : Nat → List RepoFile → List RepoFile
  | _, [] => []
  | acc, f :: rest =>
    if acc + fileSize f ≤ limit then f :: takeWithinLimit limit (acc + fileSize f) rest
    else []

/-- The list of files whose content the selector includes: the repository's
files, filtered, then cut off at the size limit. -/
def includedFiles (files : List RepoFile)
    (selected_folders selected_files selected_languages : List String)
    (limit : Nat) : List RepoFile :=
  takeWithinLimit limit 0
    (files.filter (matchesFilter selected_folders selected_files selected_languages))

/-- Modelled from the spec: `repo_service.RepoService.get_filtered_files`
(called in `app.py` lines 64 and 143) — the concatenated text blob of the
included files' contents. -/
def get_filtered_files (files : List RepoFile)
    (selected_folders selected_files selected_languages : List String)
    (limit : Nat) : String :=
  String.join ((includedFiles files selected_folders selected_files
    selected_languages limit).map renderFile)

/-- Cumulative size of a list of files. -/
def sumSizes (l : List RepoFile) : Nat := (l.map fileSize).sum

lemma mem_takeWithinLimit {f : RepoFile} {limit : Nat} :
    ∀ {acc : Nat} {l : List RepoFile}, f ∈ takeWithinLimit limit acc l → f ∈ l := by
  intro acc l
  induction l generalizing acc with
  | nil => intro h; exact absurd h (by simp [takeWithinLimit])
  | cons g rest ih =>
    intro h
    rw [takeWithinLimit] at h
    by_cases hle : acc + fileSize g ≤ limit
    · rw [if_pos hle] at h
      rcases List.mem_cons.mp h with h1 | h2
      · exact h1 ▸ List.mem_cons_self g rest
      · exact List.mem_cons_of_mem g (ih h2)
    · rw [if_neg hle] at h
      exact absurd h (by simp)

lemma contains_mem {l : List String} {a : String} (h : l.contains a = true) : a ∈ l := by
  simpa using h

lemma matchesFilter_spec {fo fi la : List String} {f : RepoFile}
    (h : matchesFilter fo fi la f = true) :
    (fo = [] ∨ f.folder ∈ fo) ∧ (fi = [] ∨ f.path ∈ fi) ∧ (la = [] ∨ f.language ∈ la) := by
  rw [matchesFilter, Bool.and_eq_true, Bool.and_eq_true] at h
  obtain ⟨⟨h1, h2⟩, h3⟩ := h
  refine ⟨?_, ?_, ?_⟩
  · rcases Bool.or_eq_true _ _ |>.mp h1 with he | hc
    · exact Or.inl (by simpa [List.isEmpty_iff] using he)
    · exact Or.inr (contains_mem hc)
  · rcases Bool.or_eq_true _ _ |>.mp h2 with he | hc
    · exact Or.inl (by simpa [List.isEmpty_iff] using he)
    · exact Or.inr (contains_mem hc)
  · rcases Bool.or_eq_true _ _ |>.mp h3 with he | hc
    · exact Or.inl (by simpa [List.isEmpty_iff] using he)
    · exact Or.inr (contains_mem hc)

lemma sumSizes_takeWithinLimit {limit : Nat} :
    ∀ (l : List RepoFile) (acc : Nat), acc ≤ limit →
      acc + sumSizes (takeWithinLimit limit acc l) ≤ limit := by
  intro l
  induction l with
  | nil => intro acc hacc; simpa [takeWithinLimit, sumSizes] using hacc
  | cons f rest ih =>
    intro acc hacc
    rw [takeWithinLimit]
    by_cases hle : acc + fileSize f ≤ limit
    · rw [if_pos hle]
      have := ih (acc + fileSize f) hle
      simp only [sumSizes, List.map_cons, List.sum_cons] at this ⊢
      omega
    · rw [if_neg hle]
      simpa [sumSizes] using hacc

/-- C1.  Every file whose content appears in the selector's output matches
every non-empty filter dimension: AND across the folder/file/language
dimensions, OR within each dimension's set, and an empty dimension imposes
no constraint. -/
theorem selector_respects_filters (files : List RepoFile)
    (fo fi la : List String) (limit : Nat) (f : RepoFile)
    (h : f ∈ includedFiles files fo fi la limit) :
    matchesFilter fo fi la f = true ∧
      ((fo = [] ∨ f.folder ∈ fo) ∧ (fi = [] ∨ f.path ∈ fi) ∧ (la = [] ∨ f.language ∈ la)) := by
  have hf : f ∈ files.filter (matchesFilter fo fi la) := mem_takeWithinLimit h
  have hm : matchesFilter fo fi la f = true := List.of_mem_filter hf
  exact ⟨hm, matchesFilter_spec hm⟩

/-- C1 witness: a concrete repository and filter selection. -/
theorem selector_respects_filters_witness :
    matchesFilter ["/"] [] ["python"] ⟨"a.py", "/", "python", "print(1)"⟩ = true ∧
      ((["/"] = ([] : List String) ∨ "/" ∈ ["/"]) ∧
        (([] : List String) = [] ∨ "a.py" ∈ ([] : List String)) ∧
        (["python"] = ([] : List String) ∨ "python" ∈ ["python"])) :=
  selector_respects_filters
    [⟨"a.py", "/", "python", "print(1)"⟩, ⟨"b.js", "/src", "js", "x"⟩]
    ["/"] [] ["python"] 100 ⟨"a.py", "/", "python", "print(1)"⟩ (by decide)

/-- C2.  The cumulative size of the files whose content the selector includes
never exceeds the limit, and when the limit is smaller than the first
(filtered) file's size the selector returns the empty string; files are
included whole or not at all by construction of `includedFiles`. -/
theorem selector_respects_limit (files : List RepoFile)
    (fo fi la : List String) (limit : Nat) (_hpos : 0 < limit) :
    sumSizes (includedFiles files fo fi la limit) ≤ limit ∧
      (∀ f rest, files.filter (matchesFilter fo fi la) = f :: rest →
        limit < fileSize f → get_filtered_files files fo fi la limit = "") := by
  constructor
  · have h0 : (0 : Nat) ≤ limit := Nat.zero_le _
    have := sumSizes_takeWithinLimit (files.filter (matchesFilter fo fi la)) 0 h0
    simpa [includedFiles] using this
  · intro f rest hsplit hbig
    simp only [get_filtered_files, includedFiles, hsplit]
    rw [takeWithinLimit, if_neg (by omega : ¬ 0 + fileSize f ≤ limit)]
    rfl

/-- C2 witness: limit 3 with a first file of size 5 yields the empty string. -/
theorem selector_respects_limit_witness :
    sumSizes (includedFiles [⟨"a.py", "/", "python", "hello"⟩] [] [] [] 3) ≤ 3 ∧
      (∀ f rest,
        List.filter (matchesFilter [] [] []) [⟨"a.py", "/", "python", "hello"⟩] = f :: rest →
        3 < fileSize f → get_filtered_files [⟨"a.py", "/", "python", "hello"⟩] [] [] [] 3 = "") :=
  selector_respects_limit [⟨"a.py", "/", "python", "hello"⟩] [] [] [] 3 (by decide)

/-- A chat message, `{role, content}` as stored in
`st.session_state["messages"]`. -/
structure ChatMessage where
  role : String
  content : String
deriving Repr, DecidableEq

/-- Appending one turn to the history: `st.session_state.messages.append(...)`
(`app.py` lines 130 and 183). -/
def appendMessage (history : List ChatMessage) (m : ChatMessage) : List ChatMessage :=
  history ++ [m]

/-- The Clear Chat button handler: `st.session_state["messages"] = []`
(`app.py` line 100). -/
def clearChat (_history : List ChatMessage) : List ChatMessage := []

lemma foldl_appendMessage (acc : List ChatMessage) (turns : List ChatMessage) :
    turns.foldl appendMessage acc = acc ++ turns := by
  induction turns generalizing acc with
  | nil => simp
  | cons m rest ih => simp [appendMessage, ih]

/-- C3.  Appending N turns to an empty chat session yields a history of
length N whose elements appear in insertion order, and Clear Chat yields a
history of length 0. -/
theorem chat_history_append_reset (turns : List ChatMessage) (history : List ChatMessage) :
    (turns.foldl appendMessage []).length = turns.length ∧
      turns.foldl appendMessage [] = turns ∧
      (clearChat history).length = 0 := by
  rw [foldl_appendMessage]
  exact ⟨by simp, by simp, rfl⟩

/-- The incremental display handler `StreamHandler` of `app.py` lines 11-18:
`process_token` appends the new token to the accumulated text, which is then
what the container displays. -/
structure StreamHandler where
  text : String
deriving Repr, DecidableEq

/-- `StreamHandler.process_token` (`app.py` lines 16-18). -/
def process_token (h : StreamHandler) (tok : String) : StreamHandler :=
  ⟨h.text ++ tok⟩

/-- The streaming loop of `app.py` lines 179-181: each arriving chunk is fed
to `process_token` in order. -/
def runStream (h : StreamHandler) (chunks : List String) : StreamHandler :=
  chunks.foldl process_token h

lemma foldl_append_join (ds : List String) :
    ∀ (a : String), List.foldl (fun r s => r ++ s) a ds = a ++ String.join ds := by
  induction ds with
  | nil => intro a; simp [String.join]
  | cons d ds ih =>
    intro a
    show List.foldl (fun r s => r ++ s) (a ++ d) ds = a ++ String.join (d :: ds)
    rw [ih (a ++ d), String.append_assoc]
    have hd : String.join (d :: ds) = d ++ String.join ds := by
      show List.foldl (fun r s => r ++ s) ("" ++ d) ds = d ++ String.join ds
      rw [String.empty_append, ih d]
    rw [hd]

lemma join_cons (c : String) (cs : List String) :
    String.join (c :: cs) = c ++ String.join cs := by
  show List.foldl (fun r s => r ++ s) ("" ++ c) cs = c ++ String.join cs
  rw [String.empty_append, foldl_append_join cs c]

lemma runStream_text (s : String) (chunks : List String) :
    (runStream ⟨s⟩ chunks).text = s ++ String.join chunks := by
  induction chunks generalizing s with
  | nil => simp [runStream, String.join]
  | cons c cs ih =>
    show (runStream ⟨s ++ c⟩ cs).text = s ++ String.join (c :: cs)
    rw [ih, join_cons, String.append_assoc]

/-- C4.  The streaming loop consumes the increments in order: after the
first k increments the displayed text is the concatenation of those k
increments, and the assistant message appended to the history at the end of
the turn carries the concatenation of all increments in arrival order. -/
theorem stream_consumed_in_order (chunks : List String) (k : Nat)
    (history : List ChatMessage) :
    (runStream ⟨""⟩ (chunks.take k)).text = String.join (chunks.take k) ∧
      (runStream ⟨""⟩ chunks).text = String.join chunks ∧
      appendMessage history ⟨"assistant", (runStream ⟨""⟩ chunks).text⟩ =
        history ++ [⟨"assistant", String.join chunks⟩] := by
  refine ⟨?_, ?_, ?_⟩
  · rw [runStream_text, String.empty_append]
  · rw [runStream_text, String.empty_append]
  · rw [appendMessage, runStream_text, String.empty_append]

/-- Modelled from the spec: `token_count.num_tokens_from_string` (the
`token_count` module is not in the sources) — a deterministic token estimate
of a text under one fixed tokenization scheme; modelled as the usual
four-characters-per-token heuristic, which maps the empty string to 0. -/
def num_tokens_from_string (text : String) : Nat := text.length / 4

/-- Modelled from the spec: the fixed per-message token overhead of the
message-list estimator. -/
def tokensPerMessage : Nat := 3

/-- Modelled from the spec: `token_count.num_messages` — the estimate of a
whole message list, accumulating each message's content estimate plus the
fixed per-message overhead. -/
def num_messages (msgs : List ChatMessage) : Nat :=
  msgs.foldl (fun acc m => acc + tokensPerMessage + num_tokens_from_string m.content) 0

lemma num_messages_foldl (acc : Nat) (msgs : List ChatMessage) :
    msgs.foldl (fun a m => a + tokensPerMessage + num_tokens_from_string m.content) acc =
      acc + (msgs.map (fun m => num_tokens_from_string m.content)).sum +
        tokensPerMessage * msgs.length := by
  induction msgs generalizing acc with
  | nil => simp
  | cons m rest ih =>
    simp only [List.foldl_cons, List.map_cons, List.sum_cons, List.length_cons, ih]
    simp only [tokensPerMessage]
    omega

/-- C8.  The token estimator is a deterministic function of its input text:
equal texts get equal estimates, the empty string estimates to 0, and the
message-list overload equals the sum of the per-message content estimates
plus a fixed per-message overhead. -/
theorem estimator_deterministic (s t : String) (msgs : List ChatMessage)
    (h : s = t) :
    num_tokens_from_string s = num_tokens_from_string t ∧
      num_tokens_from_string "" = 0 ∧
      num_messages msgs =
        (msgs.map (fun m => num_tokens_from_string m.content)).sum +
          tokensPerMessage * msgs.length := by
  refine ⟨h ▸ rfl, rfl, ?_⟩
  rw [num_messages, num_messages_foldl, Nat.zero_add]

/-- C8 witness: the estimator at concrete texts and a concrete message list. -/
theorem estimator_deterministic_witness :
    num_tokens_from_string "hello world" = num_tokens_from_string "hello world" ∧
      num_tokens_from_string "" = 0 ∧
      num_messages ([⟨"user", "hello world"⟩] : List ChatMessage) =
        (([⟨"user", "hello world"⟩] : List ChatMessage).map
          (fun m => num_tokens_from_string m.content)).sum +
          tokensPerMessage * ([⟨"user", "hello world"⟩] : List ChatMessage).length :=
  estimator_deterministic "hello world" "hello world" [⟨"user", "hello world"⟩] rfl

/-- Modelled from the spec: a client produced by the Model Client Factory,
identified by the model it was created for. -/
structure Client where
  modelId : String
deriving Repr, DecidableEq

/-- Modelled from the spec: `llm_service.create_client_for_model` (the
`llm_service` module is not in the sources) — given a model identifier,
produces a client for that model. -/
def create_client_for_model (model : String) : Client := ⟨model⟩

/-- A repository known to the registry: URL, name, and its file metadata. -/
structure Repo where
  url : String
  repo_name : String
  files : List RepoFile
deriving Repr, DecidableEq

/-- Modelled from the spec: `repo_service.RepoManager` — the registry of
known repositories. -/
structure RepoManager where
  repos : List Repo
deriving Repr, DecidableEq

/-- Modelled from the spec: `RepoManager.check_if_repo_exists`. -/
def check_if_repo_exists (m : RepoManager) (url : String) : Bool :=
  m.repos.any (fun r => r.url == url)

/-- Modelled from the spec: `RepoManager.isEmpty`. -/
def RepoManager.isEmpty (m : RepoManager) : Bool := m.repos.isEmpty

/-- Modelled from the spec: `RepoManager.get_repo_service`. -/
def get_repo_service (m : RepoManager) (url : String) : Option Repo :=
  m.repos.find? (fun r => r.url == url)

/-- Modelled from the spec: `RepoManager.get_repo_urls`. -/
def get_repo_urls (m : RepoManager) : List String := m.repos.map Repo.url

/-- Modelled from the spec: `RepoManager.add_repo` — cloning the URL may
fail; on success the repository (with the files the clone produced) is
appended to the registry, on failure the registry is left unchanged.
`cloneOk` and `cloneFiles` abstract the external clone outcome. -/
def add_repo (cloneOk : String → Bool) (cloneFiles : String → List RepoFile)
    (m : RepoManager) (url : String) : Bool × RepoManager :=
  if cloneOk url then (true, ⟨m.repos ++ [⟨url, url, cloneFiles url⟩]⟩)
  else (false, m)

/-- The Add Custom Repository button handler of `app.py` lines 40-44: one
call to `add_repo`, a success message on success, an error message on
failure, no retry. -/
def addRepoButton (cloneOk : String → Bool) (cloneFiles : String → List RepoFile)
    (m : RepoManager) (url : String) : String × RepoManager :=
  let r := add_repo cloneOk cloneFiles m url
  if r.fst then ("Added custom repository: " ++ url, r.snd)
  else ("Repository add failed: " ++ url, r.snd)

/-- C7.  When the clone of a URL fails, `add_repo` returns failure and the
registry is unchanged (same known URLs), and the button handler surfaces a
user-visible error message without retrying. -/
theorem add_repo_failure (cloneOk : String → Bool) (cloneFiles : String → List RepoFile)
    (m : RepoManager) (url : String) (h : cloneOk url = false) :
    add_repo cloneOk cloneFiles m url = (false, m) ∧
      get_repo_urls (add_repo cloneOk cloneFiles m url).snd = get_repo_urls m ∧
      addRepoButton cloneOk cloneFiles m url = ("Repository add failed: " ++ url, m) := by
  have ha : add_repo cloneOk cloneFiles m url = (false, m) := by
    rw [add_repo, if_neg (by simp [h])]
  refine ⟨ha, by rw [ha], ?_⟩
  rw [addRepoButton, ha]
  simp

/-- C7 witness: a clone that always fails leaves a concrete registry
unchanged. -/
theorem add_repo_failure_witness :
    add_repo (fun _ => false) (fun _ => []) ⟨[⟨"u", "u", []⟩]⟩ "bad" =
        (false, ⟨[⟨"u", "u", []⟩]⟩) ∧
      get_repo_urls (add_repo (fun _ => false) (fun _ => []) ⟨[⟨"u", "u", []⟩]⟩ "bad").snd =
        get_repo_urls ⟨[⟨"u", "u", []⟩]⟩ ∧
      addRepoButton (fun _ => false) (fun _ => []) ⟨[⟨"u", "u", []⟩]⟩ "bad" =
        ("Repository add failed: " ++ "bad", ⟨[⟨"u", "u", []⟩]⟩) :=
  add_repo_failure (fun _ => false) (fun _ => []) ⟨[⟨"u", "u", []⟩]⟩ "bad" rfl

/-- The mutable session state of the app (`st.session_state`): the registry,
the chat history, the cached client and the model it is tracked against
(`selected_model`, absent before the first turn). -/
structure AppState where
  repoManager : RepoManager
  messages : List ChatMessage
  client : Client
  selectedModel : Option String
deriving Repr, DecidableEq

/-- The state after the script's initialisation (`app.py` lines 29-32 and
102-103): empty history, a client created for the model selected in the UI,
and no `selected_model` key yet. -/
def initialState (m : RepoManager) (model : String) : AppState :=
  ⟨m, [], create_client_for_model model, none⟩

/-- The user selections a turn runs under. -/
structure TurnInput where
  repo_url : String
  prompt : String
  system_prompt : String
  selected_model : String
  selected_folders : List String
  selected_files : List String
  selected_languages : List String
  limit : Nat
  chunks : List String
deriving Repr, DecidableEq

/-- The message list sent to the model (`app.py` lines 156-160): the system
prompt, then the concatenated file contents as a user message, then the chat
history. -/
def assembleMessages (system_prompt file_string : String)
    (history : List ChatMessage) : List ChatMessage :=
  [⟨"system", system_prompt⟩] ++ [⟨"user", file_string⟩] ++ history

/-- The client used for this turn (`app.py` lines 136-141 and 161): if the
tracked `selected_model` differs from the UI selection, a fresh client is
created; otherwise the cached client is kept. -/
def turnClient (s : AppState) (model : String) : Client :=
  if s.selectedModel ≠ some model then create_client_for_model model else s.client

/-- The tracked `selected_model` after the turn's model check
(`app.py` lines 139-141). -/
def turnSelectedModel (s : AppState) (model : String) : Option String :=
  if s.selectedModel ≠ some model then some model else s.selectedModel

/-- The observable outcome of one script run that carries a chat prompt:
either the run stops at a guard with an informational message and the state
unchanged, or it completes, having sent `sent` to the model through
`clientUsed`. -/
inductive TurnResult where
  | aborted (info : String) (state : AppState)
  | completed (state : AppState) (sent : List ChatMessage) (clientUsed : Client)
deriving Repr, DecidableEq

/-- The message list a turn sent to the model, if any. -/
def modelCallOf : TurnResult → Option (List ChatMessage)
  | TurnResult.aborted _ _ => none
  | TurnResult.completed _ sent _ => some sent

/-- One run of the script body with a chat prompt (`app.py` lines 105-185):
the emptiness and existence guards stop the run before any context is built
or any model call is issued; otherwise the user prompt is appended to the
history, the client is refreshed if the model changed, the filtered file
context is built, the message list is assembled and sent, the streamed
chunks are consumed in order, and the assistant message is appended. -/
def processTurn (s : AppState) (inp : TurnInput) : TurnResult :=
  if s.repoManager.isEmpty then
    TurnResult.aborted "Copy the repository URL and click the download button." s
  else if check_if_repo_exists s.repoManager inp.repo_url then
    match get_repo_service s.repoManager inp.repo_url with
    | none =>
      TurnResult.aborted (inp.repo_url ++ " does not exist. Please add the repository first.") s
    | some repo =>
      TurnResult.completed
        ⟨s.repoManager,
         appendMessage (appendMessage s.messages ⟨"user", inp.prompt⟩)
           ⟨"assistant", (runStream ⟨""⟩ inp.chunks).text⟩,
         turnClient s inp.selected_model,
         turnSelectedModel s inp.selected_model⟩
        (assembleMessages inp.system_prompt
          (get_filtered_files repo.files inp.selected_folders inp.selected_files
            inp.selected_languages inp.limit)
          (appendMessage s.messages ⟨"user", inp.prompt⟩))
        (turnClient s inp.selected_model)
  else
    TurnResult.aborted (inp.repo_url ++ " does not exist. Please add the repository first.") s

lemma processTurn_completed_inv {s : AppState} {inp : TurnInput} {st : AppState}
    {sent : List ChatMessage} {client : Client}
    (h : processTurn s inp = TurnResult.completed st sent client) :
    ∃ repo, get_repo_service s.repoManager inp.repo_url = some repo ∧
      client = turnClient s inp.selected_model ∧
      sent = assembleMessages inp.system_prompt
        (get_filtered_files repo.files inp.selected_folders inp.selected_files
          inp.selected_languages inp.limit)
        (appendMessage s.messages ⟨"user", inp.prompt⟩) ∧
      st = ⟨s.repoManager,
        appendMessage (appendMessage s.messages ⟨"user", inp.prompt⟩)
          ⟨"assistant", (runStream ⟨""⟩ inp.chunks).text⟩,
        turnClient s inp.selected_model,
        turnSelectedModel s inp.selected_model⟩ := by
  rw [processTurn] at h
  by_cases hemp : s.repoManager.isEmpty
  · rw [if_pos hemp] at h; exact absurd h (by simp)
  · rw [if_neg hemp] at h
    by_cases hex : check_if_repo_exists s.repoManager inp.repo_url
    · rw [if_pos hex] at h
      cases hfind : get_repo_service s.repoManager inp.repo_url with
      | none => rw [hfind] at h; exact absurd h (by simp)
      | some repo =>
        rw [hfind] at h
        injection h with h1 h2 h3
        exact ⟨repo, rfl, h3.symm, h2.symm, h1.symm⟩
    · rw [if_neg hex] at h; exact absurd h (by simp)

/-- C5.  For every turn that completes, the message list sent to the model is
the system prompt first, then the concatenated repository file contents as
the context message, then the full chat history, in exactly that order. -/
theorem messages_assembled_in_order (s : AppState) (inp : TurnInput)
    (st : AppState) (sent : List ChatMessage) (client : Client)
    (h : processTurn s inp = TurnResult.completed st sent client) :
    ∃ repo, get_repo_service s.repoManager inp.repo_url = some repo ∧
      sent = ⟨"system", inp.system_prompt⟩ ::
        ⟨"user", get_filtered_files repo.files inp.selected_folders inp.selected_files
          inp.selected_languages inp.limit⟩ ::
        appendMessage s.messages ⟨"user", inp.prompt⟩ := by
  obtain ⟨repo, hfind, _, hsent, _⟩ := processTurn_completed_inv h
  exact ⟨repo, hfind, by rw [hsent]; rfl⟩

/-- C10.  For every turn that completes, the current user prompt was appended
to the history before assembly: the sent list ends with the current user
prompt, preceded by the earlier history in order. -/
theorem sent_ends_with_prompt (s : AppState) (inp : TurnInput)
    (st : AppState) (sent : List ChatMessage) (client : Client)
    (h : processTurn s inp = TurnResult.completed st sent client) :
    sent.drop 2 = s.messages ++ [⟨"user", inp.prompt⟩] ∧
      sent.getLast? = some ⟨"user", inp.prompt⟩ := by
  obtain ⟨repo, _, _, hsent, _⟩ := processTurn_completed_inv h
  subst hsent
  constructor
  · rfl
  · rw [show assembleMessages inp.system_prompt
        (get_filtered_files repo.files inp.selected_folders inp.selected_files
          inp.selected_languages inp.limit)
        (appendMessage s.messages ⟨"user", inp.prompt⟩) =
      (⟨"system", inp.system_prompt⟩ ::
        ⟨"user", get_filtered_files repo.files inp.selected_folders inp.selected_files
          inp.selected_languages inp.limit⟩ :: s.messages) ++ [⟨"user", inp.prompt⟩]
      from by simp [assembleMessages, appendMessage]]
    exact List.getLast?_concat _

/-- C6.  If the selected repository URL does not exist in the registry when a
turn is processed, the run stops at a guard with an informational message,
the session state unchanged and no model call issued. -/
theorem missing_repo_aborts (s : AppState) (inp : TurnInput)
    (h : check_if_repo_exists s.repoManager inp.repo_url = false) :
    (∃ info, processTurn s inp = TurnResult.aborted info s) ∧
      modelCallOf (processTurn s inp) = none := by
  rw [processTurn]
  by_cases hemp : s.repoManager.isEmpty
  · rw [if_pos hemp]
    exact ⟨⟨_, rfl⟩, rfl⟩
  · rw [if_neg hemp, if_neg (by simp [h])]
    exact ⟨⟨_, rfl⟩, rfl⟩

/-- The caching invariant of the session's client: whenever a model is
tracked in `selected_model`, the cached client is the one the factory
produces for that model. -/
def clientInvariant (s : AppState) : Prop :=
  ∀ m, s.selectedModel = some m → s.client = create_client_for_model m

/-- C9.  For every turn that completes under the caching invariant, the
client issuing the streaming call was created for the currently selected
model; when the tracked model equals the selection the cached client is
reused; the invariant is preserved, and it holds in the initial state. -/
theorem client_matches_selected_model (s : AppState) (inp : TurnInput)
    (st : AppState) (sent : List ChatMessage) (client : Client)
    (hInv : clientInvariant s)
    (h : processTurn s inp = TurnResult.completed st sent client) :
    client = create_client_for_model inp.selected_model ∧
      (s.selectedModel = some inp.selected_model → client = s.client) ∧
      clientInvariant st ∧
      (∀ (rm : RepoManager) (model : String), clientInvariant (initialState rm model)) := by
  obtain ⟨repo, hfind, hclient, hsent, hst⟩ := processTurn_completed_inv h
  have hc : turnClient s inp.selected_model = create_client_for_model inp.selected_model := by
    rw [turnClient]
    by_cases hm : s.selectedModel ≠ some inp.selected_model
    · rw [if_pos hm]
    · rw [if_neg hm]
      push_neg at hm
      exact hInv _ hm
  refine ⟨hclient.trans hc, ?_, ?_, ?_⟩
  · intro hsame
    rw [hclient, turnClient, if_neg (by simp [hsame])]
  · rw [hst]
    intro m hm
    show turnClient s inp.selected_model = create_client_for_model m
    simp only [turnSelectedModel] at hm
    rw [turnClient]
    by_cases hne : s.selectedModel ≠ some inp.selected_model
    · rw [if_pos hne] at hm
      rw [if_pos hne]
      injection hm with hm1
      rw [hm1]
    · rw [if_neg hne] at hm
      rw [if_neg hne]
      exact hInv _ hm
  · intro rm model m hm
    exact absurd hm (by simp [initialState])

/-- A concrete repository file used by the turn-level witnesses. -/
def sampleFile : RepoFile := ⟨"README.md", "/", "markdown", "hello"⟩

/-- A concrete repository used by the turn-level witnesses. -/
def sampleRepo : Repo := ⟨"https://r", "r", [sampleFile]⟩

/-- A concrete registry used by the turn-level witnesses. -/
def sampleManager : RepoManager := ⟨[sampleRepo]⟩

/-- A concrete pre-turn session state used by the turn-level witnesses. -/
def sampleState : AppState := ⟨sampleManager, [], create_client_for_model "gpt-4o", none⟩

/-- A concrete turn input whose repository exists in the registry. -/
def sampleInput : TurnInput :=
  ⟨"https://r", "hi", "sys", "gpt-4o", [], [], [], 1000, ["Hel", "lo"]⟩

/-- A concrete turn input whose repository is missing from the registry. -/
def sampleInputMissing : TurnInput :=
  ⟨"https://gone", "hi", "sys", "gpt-4o", [], [], [], 1000, []⟩

/-- The message list the sample turn sends. -/
def sampleSent : List ChatMessage :=
  [⟨"system", "sys"⟩, ⟨"user", "### README.md\nhello\n"⟩, ⟨"user", "hi"⟩]

/-- The session state after the sample turn. -/
def sampleFinal : AppState :=
  ⟨sampleManager, [⟨"user", "hi"⟩, ⟨"assistant", "Hello"⟩], ⟨"gpt-4o"⟩, some "gpt-4o"⟩

/-- C5 witness: the sample turn's sent list, concretely. -/
theorem messages_assembled_in_order_witness :
    ∃ repo, get_repo_service sampleState.repoManager sampleInput.repo_url = some repo ∧
      sampleSent = ⟨"system", sampleInput.system_prompt⟩ ::
        ⟨"user", get_filtered_files repo.files sampleInput.selected_folders
          sampleInput.selected_files sampleInput.selected_languages sampleInput.limit⟩ ::
        appendMessage sampleState.messages ⟨"user", sampleInput.prompt⟩ :=
  messages_assembled_in_order sampleState sampleInput sampleFinal sampleSent
    ⟨"gpt-4o"⟩ (by decide)

/-- C10 witness: the sample turn's sent list ends with the user prompt. -/
theorem sent_ends_with_prompt_witness :
    sampleSent.drop 2 = sampleState.messages ++ [⟨"user", sampleInput.prompt⟩] ∧
      sampleSent.getLast? = some ⟨"user", sampleInput.prompt⟩ :=
  sent_ends_with_prompt sampleState sampleInput sampleFinal sampleSent
    ⟨"gpt-4o"⟩ (by decide)

/-- C6 witness: a turn naming a missing repository URL stops at the guard. -/
theorem missing_repo_aborts_witness :
    (∃ info, processTurn sampleState sampleInputMissing = TurnResult.aborted info sampleState) ∧
      modelCallOf (processTurn sampleState sampleInputMissing) = none :=
  missing_repo_aborts sampleState sampleInputMissing (by decide)

/-- C9 witness: the sample turn's client, concretely. -/
theorem client_matches_selected_model_witness :
    (⟨"gpt-4o"⟩ : Client) = create_client_for_model sampleInput.selected_model ∧
      (sampleState.selectedModel = some sampleInput.selected_model →
        (⟨"gpt-4o"⟩ : Client) = sampleState.client) ∧
      clientInvariant sampleFinal ∧
      (∀ (rm : RepoManager) (model : String), clientInvariant (initialState rm model)) :=
  client_matches_selected_model sampleState sampleInput sampleFinal sampleSent
    ⟨"gpt-4o"⟩ (by intro m hm; exact absurd hm (by simp [sampleState])) (by decide)

end RepoChat
